import Mathlib

/-!
Verification development for the chrona HTTP request/response log-line
formatter (src/index.ts, with the earlier variant kept in src/unnamed).

The development shallowly embeds the TypeScript source: pure functions become
Lean functions, the ambient clock and the locale-dependent `Date` renderings
become explicit arguments, the mutable closure arrays of a compiled plan
become explicit state passed through the render functions, and the two
JavaScript regular expressions used for IP validation are run by a small
backtracking regex interpreter over ASTs transcribed node by node from the
regex literals.
-/

namespace Chrona

/-! ### JavaScript string primitives -/

/-- Characters matched by the JavaScript regex class `\s` (the subset that can
occur in the strings handled here: ASCII whitespace plus NBSP, narrow NBSP and
BOM). -/
def isJsWs (c : Char) : Bool :=
  c == ' ' || c == '\t' || c == '\n' || c == '\r' || c == '\x0b' || c == '\x0c' ||
    c.val == 0xa0 || c.val == 0x202f || c.val == 0xfeff

/-- JavaScript `String.prototype.trim`. -/
def jsTrim (s : String) : String :=
  ⟨((s.data.dropWhile isJsWs).reverse.dropWhile isJsWs).reverse⟩

/-- JavaScript `str.replace(/\s/g, "")`. -/
def stripWsAll (s : String) : String :=
  ⟨s.data.filter (fun c => !isJsWs c)⟩

/-- JavaScript `str.replace(regexes.tokenWithoutBrackets, "")`, i.e. the
replacement of `/\[|\]/g` by the empty string: drop every square bracket. -/
def stripBrackets (s : String) : String :=
  ⟨s.data.filter (fun c => !(c == '[' || c == ']'))⟩

/-- One step of `str.replace(/\s+/g, " ")`: the flag records whether the
previously emitted character came from a whitespace run. -/
def collapseWsAux : Bool → List Char → List Char
  | _, [] => []
  | prevWs, c :: rest =>
    if isJsWs c then
      if prevWs then collapseWsAux true rest
      else ' ' :: collapseWsAux true rest
    else c :: collapseWsAux false rest

/-- JavaScript `str.replace(/\s+/g, " ")`. -/
def collapseWs (s : String) : String := ⟨collapseWsAux false s.data⟩

/-- JavaScript `a || b` for a possibly undefined string `a` with default `b`
(the empty string is falsy). -/
def jsOr (a : Option String) (b : String) : String :=
  match a with
  | some s => if s == "" then b else s
  | none => b

/-- Split a character list at every occurrence of a separator character
(JavaScript `str.split(sep)` for a one-character separator: empty pieces are
kept, and the empty string yields one empty piece). -/
def splitOnCh (sep : Char) : List Char → List (List Char)
  | [] => [[]]
  | c :: rest =>
    let tail := splitOnCh sep rest
    if c == sep then [] :: tail
    else
      match tail with
      | [] => [[c]]
      | p :: ps => (c :: p) :: ps

/-- JavaScript `str.split(sep)` for a one-character separator. -/
def jsSplit (sep : Char) (s : String) : List String :=
  (splitOnCh sep s.data).map (fun l => ⟨l⟩)

/-- JavaScript `str.includes(c)` for a one-character needle. -/
def containsCh (s : String) (c : Char) : Bool := s.data.any (fun d => d == c)

/-- Join a list of strings with a separator (`Array.prototype.join`). -/
def joinSep (sep : String) : List String → String
  | [] => ""
  | [s] => s
  | s :: rest => s ++ sep ++ joinSep sep rest

/-- JavaScript `str.toUpperCase()` on the ASCII strings handled here. -/
def toUpperStr (s : String) : String := ⟨s.data.map Char.toUpper⟩

/-- JavaScript `str.toLowerCase()` on the ASCII strings handled here. -/
def toLowerStr (s : String) : String := ⟨s.data.map Char.toLower⟩

/-! ### Colors (model of the chalk library)

The chalk library is an external collaborator: applying a chalk color wraps
the string in the corresponding ANSI escape sequences. -/

inductive Color where
  | gray | grey | magenta | red | yellow | cyan | green | blue | white
  | magentaBright | redBright | greenBright | yellowBright | blueBright
  | cyanBright | whiteBright
deriving DecidableEq, Repr

/-- ANSI open code of a chalk foreground color. -/
def ansiOpen : Color → String
  | .gray => "\x1b[90m"
  | .grey => "\x1b[90m"
  | .magenta => "\x1b[35m"
  | .red => "\x1b[31m"
  | .yellow => "\x1b[33m"
  | .cyan => "\x1b[36m"
  | .green => "\x1b[32m"
  | .blue => "\x1b[34m"
  | .white => "\x1b[37m"
  | .magentaBright => "\x1b[95m"
  | .redBright => "\x1b[91m"
  | .greenBright => "\x1b[92m"
  | .yellowBright => "\x1b[93m"
  | .blueBright => "\x1b[94m"
  | .cyanBright => "\x1b[96m"
  | .whiteBright => "\x1b[97m"

/-- Apply a chalk foreground color to a string. -/
def paint (c : Color) (s : String) : String := ansiOpen c ++ s ++ "\x1b[39m"

/-- Apply `chalk.bgBlue.bold` to a string. -/
def bgBlueBold (s : String) : String :=
  "\x1b[44m\x1b[1m" ++ s ++ "\x1b[22m\x1b[49m"

/-- The `chalkColorsMap` lookup table of src/index.ts. -/
def chalkColorsMap (name : String) : Option Color :=
  if name == "magenta" then some .magenta
  else if name == "red" then some .red
  else if name == "yellow" then some .yellow
  else if name == "cyan" then some .cyan
  else if name == "green" then some .green
  else if name == "blue" then some .blue
  else if name == "white" then some .white
  else if name == "gray" then some .gray
  else if name == "grey" then some .grey
  else if name == "magentaBright" then some .magentaBright
  else if name == "redBright" then some .redBright
  else if name == "greenBright" then some .greenBright
  else if name == "yellowBright" then some .yellowBright
  else if name == "blueBright" then some .blueBright
  else if name == "cyanBright" then some .cyanBright
  else if name == "whiteBright" then some .whiteBright
  else none

/-- The `colorizedFn` helper of src/index.ts. In the source the color argument
is either a chalk function or a color name; every call site reached from the
token tables passes a color name (a string), so the function branch of the
source is not reachable here and the model takes the name. A missing name
falls back to `chalk.gray`. -/
def colorizedFn (color : String) : Color :=
  (chalkColorsMap color).getD .gray

/-! ### A small backtracking regex interpreter

The two IP-validation patterns of src/index.ts (`regexes.ipv4` and
`regexes.ipv6`) are JavaScript regular expressions.  They are embedded as
ASTs transcribed node by node from the regex literals and executed by a
fuel-bounded, continuation-passing backtracking matcher implementing the
ECMAScript semantics of the constructs they use (ordered alternation, greedy
bounded repetition with the empty-iteration progress rule, capturing groups,
backreferences that match the empty string when the group is unset,
lookahead and negative lookahead, word boundaries, the dot, and the
end-of-input anchor). -/

inductive RE where
  | eps
  | dot
  | lit (c : Char)
  | cls (neg : Bool) (ranges : List (Char × Char))
  | seq (a b : RE)
  | alt (a b : RE)
  | star (a : RE)
  | rep (a : RE) (lo hi : Nat)
  | grp (n : Nat) (a : RE)
  | bref (n : Nat)
  | look (positive : Bool) (a : RE)
  | wordB
  | eos

/-- Capture environment: group index to matched span (start, stop). -/
def Caps := Nat → Option (Nat × Nat)

def inCls (ranges : List (Char × Char)) (c : Char) : Bool :=
  ranges.any (fun p => decide (p.1 ≤ c) && decide (c ≤ p.2))

/-- JavaScript word character (the class `\w`), used by `\b`. -/
def isWordChar (c : Char) : Bool := c.isAlphanum || c == '_'

def listStartsWith : List Char → List Char → Bool
  | _, [] => true
  | [], _ :: _ => false
  | a :: as, b :: bs => a == b && listStartsWith as bs

/-- CPS backtracking matcher.  The fuel bounds the number of interpreter
steps; every recursive call decreases it, and the callers below supply an
amount that is ample for full backtracking over the short strings this
development evaluates. -/
def mrun : Nat → RE → List Char → Nat → Caps → (Nat → Caps → Bool) → Bool
  | 0, _, _, _, _, _ => false
  | Nat.succ fuel, re, s, i, caps, k =>
    match re with
    | .eps => k i caps
    | .dot =>
      match s.get? i with
      | some c => if c == '\n' then false else k (i + 1) caps
      | none => false
    | .lit c =>
      match s.get? i with
      | some d => if c == d then k (i + 1) caps else false
      | none => false
    | .cls neg rs =>
      match s.get? i with
      | some c => if inCls rs c != neg then k (i + 1) caps else false
      | none => false
    | .seq a b => mrun fuel a s i caps (fun j cs => mrun fuel b s j cs k)
    | .alt a b => mrun fuel a s i caps k || mrun fuel b s i caps k
    | .star a =>
      mrun fuel a s i caps
        (fun j cs => if i < j then mrun fuel (.star a) s j cs k else false)
        || k i caps
    | .rep a lo hi =>
      if hi == 0 then k i caps
      else
        let once := mrun fuel a s i caps (fun j cs =>
          if lo == 0 && j == i then false
          else mrun fuel (.rep a (lo - 1) (hi - 1)) s j cs k)
        if lo == 0 then once || k i caps else once
    | .grp n a =>
      mrun fuel a s i caps (fun j cs =>
        k j (fun m => if m = n then some (i, j) else cs m))
    | .bref n =>
      match caps n with
      | none => k i caps
      | some (a, b) =>
        let sub := (s.drop a).take (b - a)
        if listStartsWith (s.drop i) sub then k (i + (b - a)) caps else false
    | .look pos a =>
      let m := mrun fuel a s i caps (fun _ _ => true)
      if pos then (if m then k i caps else false)
      else (if m then false else k i caps)
    | .wordB =>
      let before :=
        match i with
        | 0 => false
        | Nat.succ j => match s.get? j with
          | some c => isWordChar c
          | none => false
      let after := match s.get? i with
        | some c => isWordChar c
        | none => false
      if before != after then k i caps else false
    | .eos => if i == s.length then k i caps else false

/-- Run an anchored pattern (one of the form `^...$`, with the `$` encoded as
a final `.eos` node) against a whole string. -/
def reTest (re : RE) (s : String) : Bool :=
  mrun (4000 + 600 * s.length) re s.data 0 (fun _ => none) (fun _ _ => true)

/-! #### The IPv4 pattern

Source: `/^(?:(?:\d|[1-9]\d|1\d{2}|2[0-4]\d|25[0-5])\.){3}(?:\d|[1-9]\d|1\d{2}|2[0-4]\d|25[0-5])$/` -/

def dCls : RE := .cls false [('0', '9')]

/-- The octet alternation `\d|[1-9]\d|1\d{2}|2[0-4]\d|25[0-5]`. -/
def octetRE : RE :=
  .alt dCls
    (.alt (.seq (.cls false [('1', '9')]) dCls)
      (.alt (.seq (.lit '1') (.seq dCls dCls))
        (.alt (.seq (.lit '2') (.seq (.cls false [('0', '4')]) dCls))
          (.seq (.lit '2') (.seq (.lit '5') (.cls false [('0', '5')]))))))

def ipv4RE : RE :=
  .seq (.rep (.seq octetRE (.lit '.')) 3 3) (.seq octetRE .eos)

/-! #### The IPv6 pattern

Source (with the `i` flag, so the hex class admits both letter cases):
`/^((?=.*::)(?!.*::.+::)(::)?([\dA-F]{1,4}:(:|\b)|){5}|([\dA-F]{1,4}:){6})((([\dA-F]{1,4}((?!\3)::|:\b|$))|(?!\2\3)){2}|(((2[0-4]|1\d|[1-9])?\d|25[0-5])\.?\b){4})$/i`
Group numbers in the AST follow the order of the opening parentheses of the
literal. -/

def hexCls : RE := .cls false [('0', '9'), ('A', 'F'), ('a', 'f')]

def colonRE : RE := .lit ':'

def dcolonRE : RE := .seq colonRE colonRE

/-- The lookahead `(?=.*::)`. -/
def ipv6la1 : RE := .look true (.seq (.star .dot) dcolonRE)

/-- The negative lookahead `(?!.*::.+::)`. -/
def ipv6la2 : RE :=
  .look false (.seq (.star .dot)
    (.seq dcolonRE (.seq (.seq .dot (.star .dot)) dcolonRE)))

/-- `(::)?` with capturing group 2. -/
def ipv6g2 : RE := .rep (.grp 2 dcolonRE) 0 1

/-- `([\dA-F]{1,4}:(:|\b)|){5}` with capturing groups 3 and 4. -/
def ipv6g3 : RE :=
  .rep (.grp 3 (.alt
    (.seq (.rep hexCls 1 4) (.seq colonRE (.grp 4 (.alt colonRE .wordB))))
    .eps)) 5 5

def ipv6headA : RE := .seq ipv6la1 (.seq ipv6la2 (.seq ipv6g2 ipv6g3))

/-- `([\dA-F]{1,4}:){6}` with capturing group 5. -/
def ipv6headB : RE := .rep (.grp 5 (.seq (.rep hexCls 1 4) colonRE)) 6 6

def ipv6head : RE := .grp 1 (.alt ipv6headA ipv6headB)

/-- `((?!\3)::|:\b|$)` with capturing group 9. -/
def ipv6g9 : RE :=
  .grp 9 (.alt (.seq (.look false (.bref 3)) dcolonRE)
    (.alt (.seq colonRE .wordB) .eos))

/-- `([\dA-F]{1,4}((?!\3)::|:\b|$))` with capturing group 8. -/
def ipv6g8 : RE := .grp 8 (.seq (.rep hexCls 1 4) ipv6g9)

/-- `(([\dA-F]{1,4}((?!\3)::|:\b|$))|(?!\2\3))` with capturing group 7. -/
def ipv6g7 : RE :=
  .grp 7 (.alt ipv6g8 (.look false (.seq (.bref 2) (.bref 3))))

def ipv6tailA : RE := .rep ipv6g7 2 2

/-- `(2[0-4]|1\d|[1-9])` with capturing group 12. -/
def ipv6g12 : RE :=
  .grp 12 (.alt (.seq (.lit '2') (.cls false [('0', '4')]))
    (.alt (.seq (.lit '1') dCls) (.cls false [('1', '9')])))

/-- `((2[0-4]|1\d|[1-9])?\d|25[0-5])` with capturing group 11. -/
def ipv6g11 : RE :=
  .grp 11 (.alt (.seq (.rep ipv6g12 0 1) dCls)
    (.seq (.lit '2') (.seq (.lit '5') (.cls false [('0', '5')]))))

/-- `(((2[0-4]|1\d|[1-9])?\d|25[0-5])\.?\b)` with capturing group 10. -/
def ipv6g10 : RE :=
  .grp 10 (.seq ipv6g11 (.seq (.rep (.lit '.') 0 1) .wordB))

def ipv6tailB : RE := .rep ipv6g10 4 4

def ipv6tail : RE := .grp 6 (.alt ipv6tailA ipv6tailB)

def ipv6RE : RE := .seq ipv6head (.seq ipv6tail .eos)

/-- `regexes.ipv4.test value`. -/
def isIpv4 (s : String) : Bool := reTest ipv4RE s

/-- `regexes.ipv6.test value`. -/
def isIpv6 (s : String) : Bool := reTest ipv6RE s

/-- The `ip` predicate of src/index.ts: false on a missing or empty (falsy)
value, otherwise an IPv4 or IPv6 literal test (the disjunction
short-circuits, as in the source). -/
def ip (value : Option String) : Bool :=
  match value with
  | none => false
  | some s => if s == "" then false else isIpv4 s || isIpv6 s

/-! ### Number humanization and elapsed time -/

/-- Length of the leading digit run of a character list. -/
def digitRunLen : List Char → Nat
  | [] => 0
  | c :: rest => if c.isDigit then digitRunLen rest + 1 else 0

/-- The global replacement `str.replace(/(\d)(?=(\d\d\d)+(?!\d))/g, "$1,")`:
a comma is inserted after a digit exactly when the digits following it up to
the next non-digit number a positive multiple of three, which is what the
lookahead `(\d\d\d)+(?!\d)` requires. -/
def groupDigits : List Char → List Char
  | [] => []
  | c :: rest =>
    if c.isDigit && (decide (3 ≤ digitRunLen rest) && digitRunLen rest % 3 == 0) then
      c :: ',' :: groupDigits rest
    else c :: groupDigits rest

/-- The `humanize` helper of src/index.ts, at its only call shape (no options,
so the delimiter is a comma and the separator a dot). -/
def humanize (n : String) : String :=
  match jsSplit '.' n with
  | [] => ""
  | p0 :: rest => joinSep "." (⟨groupDigits p0.data⟩ :: rest)

/-- The `getColorForTime` helper of src/index.ts (`timeColorMap` values). -/
def getColorForTime (t : Int) : Color :=
  if t < 50 then .green
  else if t < 100 then .magenta
  else .red

/-- JavaScript `Math.round (delta / 1000)`: floor of the quotient plus one
half, which also matches the JavaScript treatment of negative halves. -/
def jsRound1000 (delta : Int) : Int := (delta + 500).fdiv 1000

/-- The `time` helper of src/index.ts.  The ambient `Date.now()` becomes the
explicit first argument; the result is the humanized string together with the
raw millisecond delta, as in the source. -/
def time (now start : Int) : String × Int :=
  let delta := now - start
  let t := humanize (if delta < 10000 then toString delta ++ "ms"
    else toString (jsRound1000 delta) ++ "s")
  (t, delta)

/-! ### Dates

A JavaScript `Date` value is embedded as its observable components: the epoch
milliseconds, the UTC calendar components, and the two locale renderings used
by `timestamp()`.  The locale renderings depend on the ICU data of the host
process (`toLocaleDateString()` with the default locale and
`toLocaleTimeString("en-US", hour12)`), so they are carried as data. -/

structure JSDate where
  epochMs : Int
  utcDate : Nat
  utcHours : Nat
  utcMinutes : Nat
  utcSeconds : Nat
  utcFullYear : Nat
  /-- 0-based month, as returned by `getUTCMonth`. -/
  utcMonth : Nat
  /-- Output of `toLocaleDateString()` under the default host locale. -/
  localeDateString : String
  /-- Output of `toLocaleTimeString("en-US", { hour12: true })`. -/
  localeTimeString : String

/-- The `timestamp` function of src/index.ts: the locale date string and the
en-US 12-hour locale time string, joined by a space, trimmed, with whitespace
runs collapsed. -/
def timestamp (d : JSDate) : String :=
  collapseWs (jsTrim (d.localeDateString ++ " " ++ d.localeTimeString))

/-- The `MONTHS` table of the earlier variant (src/unnamed/part_001). -/
def MONTHS : List String :=
  ["Jan", "Feb", "Mar", "Apr", "May", "Jun", "Jul", "Aug", "Sep", "Oct",
   "Nov", "Dec"]

/-- The `pad2` helper of the earlier variant. -/
def pad2 (num : Nat) : String :=
  let str := toString num
  (if str.length == 1 then "0" else "") ++ str

/-- The `date` function of the earlier variant (src/unnamed/part_001): the
Apache common log rendering of the UTC components.  An out-of-range month
index would yield the string "undefined" in JavaScript; `getUTCMonth` never
produces one. -/
def date (dateTime : JSDate) : String :=
  pad2 dateTime.utcDate ++ "/" ++ (MONTHS.getD dateTime.utcMonth "undefined") ++ "/" ++
    toString dateTime.utcFullYear ++ ":" ++ pad2 dateTime.utcHours ++ ":" ++
    pad2 dateTime.utcMinutes ++ ":" ++ pad2 dateTime.utcSeconds ++ " +0000"

/-! ### Request and response views

The express request/response objects are external collaborators; the model
records exactly the fields the source reads. -/

structure Socket where
  remoteAddress : Option String

structure Headers where
  xClientIp : Option String
  xForwardedFor : Option String
  xRealIp : Option String
  xForwarded : Option String
  forwardedFor : Option String
  referer : Option String
  referrer : Option String
  userAgent : Option String

structure Request where
  method : String
  url : String
  originalUrl : Option String
  headers : Option Headers
  httpVersionMajor : Nat
  httpVersionMinor : Nat
  protocol : String
  socket : Option Socket
  connection : Option Socket

structure Response where
  /-- `res.statusCode`; 0 models an unset (falsy) status. -/
  statusCode : Nat
  /-- `res.getHeader("content-length")`. -/
  contentLength : Option String
  /-- `res.getHeader("x-start-time")`, stored by the middleware as a number. -/
  xStartTime : Option Int

/-- An error object as inspected by the response tokens (`err.status`). -/
structure ErrObj where
  status : Option Nat

/-! ### Client IP resolution -/

/-- The entry normalization inside `getForwardedFor`: trim, and when the
entry contains a colon and splitting on colons yields exactly two parts,
keep the first part (strip a single trailing port). -/
def normalizeXffEntry (v : String) : String :=
  let currentIp := jsTrim v
  if containsCh currentIp ':' then
    match jsSplit ':' currentIp with
    | [a, _] => a
    | _ => currentIp
  else currentIp

/-- The `getForwardedFor` function of src/index.ts. -/
def getForwardedFor (value : Option String) : String :=
  match value with
  | none => "-"
  | some v =>
    if v == "" then "-"
    else
      let forwardedIps := (jsSplit ',' v).map normalizeXffEntry
      match forwardedIps.find? (fun e => ip (some e)) with
      | some e => e
      | none => "-"

/-- The `getIp` function of src/index.ts.  The `getD` defaults are dead: each
is guarded by an `ip` test that is false on `none`. -/
def getIp (req : Request) : String :=
  match req.headers with
  | none => "-"
  | some h =>
    if ip h.xClientIp then h.xClientIp.getD "-"
    else
      let forwardedFor := getForwardedFor h.xForwardedFor
      if forwardedFor != "-" then forwardedFor
      else if ip h.xRealIp then h.xRealIp.getD "-"
      else if ip h.xForwarded then h.xForwarded.getD "-"
      else if ip h.forwardedFor then h.forwardedFor.getD "-"
      else if (match req.socket with
        | some sock => ip sock.remoteAddress
        | none => false) then
        (req.socket.bind Socket.remoteAddress).getD "-"
      else
        match req.connection with
        | some conn => if ip conn.remoteAddress then conn.remoteAddress.getD "-" else "-"
        | none => "-"

/-! ### Token registries -/

/-- The `TOKENS` vocabulary of src/index.ts. -/
def TOKENS : List String :=
  [":incoming", ":remote-address", ":date", ":method", ":url", ":http-version",
   ":status", ":content-length", ":response-time", ":referrer", ":user-agent"]

/-- JavaScript `parseInt(s, 10)`: skip leading whitespace, optional sign,
then a run of digits; `none` models `NaN`. -/
def jsParseInt (s : String) : Option Int :=
  let cs := s.data.dropWhile isJsWs
  let core : List Char → Option Nat := fun l =>
    let ds := l.takeWhile Char.isDigit
    if ds.isEmpty then none
    else some (ds.foldl (fun acc c => acc * 10 + (c.toNat - '0'.toNat)) 0)
  match cs with
  | '-' :: rest => (core rest).map (fun n => -(n : Int))
  | '+' :: rest => (core rest).map (fun n => (n : Int))
  | _ => (core cs).map (fun n => (n : Int))

/-- Modelled from the spec: the external `bytes` library, "treated as a pure
formatting function with a documented contract": a value below 1 KiB renders
as the integer with unit `B`; larger values scale by the matching power of
1024 and keep at most two decimals, trailing zeros trimmed. -/
def bytesFmt (n : Int) : String :=
  let units : List (Int × String) :=
    [(1099511627776, "TB"), (1073741824, "GB"), (1048576, "MB"), (1024, "KB")]
  match units.find? (fun u => decide (u.1 ≤ (n.natAbs : Int))) with
  | none => toString n ++ "B"
  | some (mag, unit) =>
    let val100 := (200 * n + mag).fdiv (2 * mag)
    let whole := val100.fdiv 100
    let frac := (val100 - whole * 100).toNat
    (if frac == 0 then toString whole
     else if frac % 10 == 0 then toString whole ++ "." ++ toString (frac / 10)
     else toString whole ++ "." ++ (if frac < 10 then "0" else "") ++ toString frac)
      ++ unit

/-- The effective status used by the `:status` and `:content-length` response
tokens: `err ? err.status || 500 : res.statusCode || 404`. -/
def effectiveStatus (err : Option ErrObj) (res : Response) : Nat :=
  match err with
  | some e =>
    match e.status with
    | some s => if s == 0 then 500 else s
    | none => 500
  | none => if res.statusCode == 0 then 404 else res.statusCode

/-- The `colorCodes` table of src/index.ts, keyed by status bucket. -/
def colorCodes : Nat → Option String
  | 0 => some "yellow"
  | 1 => some "green"
  | 7 => some "magenta"
  | 2 => some "green"
  | 3 => some "cyan"
  | 4 => some "yellow"
  | 5 => some "red"
  | _ => none

/-- The color-name selection of the `:status` token:
`colorCodes.hasOwnProperty(s) ? colorCodes[s] : colorCodes[0]` where `s` is
the bucket `(status / 100) | 0` (`colorCodes[0]` is "yellow"). -/
def statusColorName (status : Nat) : String :=
  match colorCodes (status / 100) with
  | some c => c
  | none => "yellow"

/-- The `REQUEST` runtime value table of src/index.ts.  The ambient clock
becomes the explicit `JSDate` argument.  A key outside the table yields
`none` (in JavaScript, calling the missing entry would throw; `compile` only
uses keys present in the table). -/
def REQUESTv (t : String) : Option (Request → JSDate → String) :=
  if t == ":method" then some (fun req _ => req.method)
  else if t == ":url" then some (fun req _ => jsOr req.originalUrl req.url)
  else if t == ":date" then some (fun _ now => timestamp now)
  else if t == ":remote-address" then some (fun req _ => getIp req)
  else if t == ":referrer" then some (fun req _ =>
    match req.headers with
    | some h => jsOr h.referer (jsOr h.referrer "-")
    | none => "-")
  else if t == ":user-agent" then some (fun req _ =>
    match req.headers with
    | some h => jsOr h.userAgent "-"
    | none => "-")
  else if t == ":http-version" then some (fun req _ =>
    "HTTP/" ++ toString req.httpVersionMajor ++ "." ++ toString req.httpVersionMinor)
  else none

/-- A response-token value: either a plain string or a value carrying its own
chalk color (the object-shaped results of the source). -/
inductive RespVal where
  | plain (s : String)
  | colored (value : String) (colorized : Color)

/-- The `RESPONSE` runtime value table of src/index.ts. -/
def RESPONSEv (t : String) :
    Option (Request → Response → Option ErrObj → JSDate → RespVal) :=
  if t == ":date" then some (fun _ _ _ now => .plain (timestamp now))
  else if t == ":status" then some (fun _ res err _ =>
    let status := effectiveStatus err res
    .colored (toString status) ((chalkColorsMap (statusColorName status)).getD .gray))
  else if t == ":content-length" then some (fun _ res err _ =>
    let status := effectiveStatus err res
    let contentLength : Option (Option Int) :=
      match res.contentLength with
      | some s => if s == "" then none else some (jsParseInt s)
      | none => none
    .plain (if status == 204 || status == 205 || status == 304 then ""
      else match contentLength with
        | none => "-"
        | some none => ""
        | some (some len) => toLowerStr (bytesFmt len)))
  else if t == ":response-time" then some (fun _ res _ now =>
    match res.xStartTime with
    | some start =>
      let r := time now.epochMs start
      .colored r.1 (getColorForTime r.2)
    | none =>
      -- a missing header reads as undefined; Number(undefined) is NaN, the
      -- NaN delta falls through both bounds to the seconds branch as "NaNs"
      -- and getColorForTime(NaN) falls through both comparisons to red
      .colored "NaNs" .red)
  else if t == ":method" then some (fun req _ _ _ => .plain req.method)
  else if t == ":url" then some (fun req _ _ _ => .plain (jsOr req.originalUrl req.url))
  else none

/-- A compiled per-token render function, `(isRequest, req, res, err)` plus
the explicit clock. -/
def RenderFn : Type :=
  Bool → Request → Response → Option ErrObj → JSDate → String

/-- The `interpolate` function of src/index.ts. -/
def interpolate (token : String) (color : String) : RenderFn :=
  let isContainsBrackets := token.data.any (fun c => c == '[' || c == ']')
  let t := stripBrackets token
  fun isRequest req res err now =>
    if isRequest then
      match REQUESTv t with
      | some f =>
        let result := f req now
        if isContainsBrackets then paint (colorizedFn color) ("[" ++ result ++ "]")
        else paint (colorizedFn color) result
      | none => ""
    else
      match RESPONSEv t with
      | some f =>
        match f req res err now with
        | .colored value colorized =>
          if isContainsBrackets then paint colorized ("[" ++ value ++ "]")
          else paint colorized value
        | .plain result =>
          if isContainsBrackets then paint (colorizedFn color) ("[" ++ result ++ "]")
          else paint (colorizedFn color) result
      | none => ""

/-- The `REQUEST_TOKENS` table of src/index.ts. -/
def REQUEST_TOKENS (value : String) : Option (String → RenderFn) :=
  if value == ":method" then some (fun token => interpolate token "whiteBright")
  else if value == ":url" then some (fun token => interpolate token "magenta")
  else if value == ":date" then some (fun token => interpolate token "gray")
  else if value == ":remote-address" then some (fun token => interpolate token "gray")
  else if value == ":referrer" then some (fun token => interpolate token "gray")
  else if value == ":user-agent" then some (fun token => interpolate token "gray")
  else if value == ":http-version" then some (fun token => interpolate token "gray")
  else none

/-- The `RESPONSE_TOKENS` table of src/index.ts. -/
def RESPONSE_TOKENS (value : String) : Option (String → RenderFn) :=
  if value == ":date" then some (fun token => interpolate token "gray")
  else if value == ":status" then some (fun token => interpolate token "")
  else if value == ":content-length" then some (fun token => interpolate token "gray")
  else if value == ":response-time" then some (fun token => interpolate token "gray")
  else if value == ":method" then some (fun token => interpolate token "whiteBright")
  else if value == ":url" then some (fun token => interpolate token "magenta")
  else none

/-! ### The format tokenizer

`extractTokens` splits the format string with
`format.split(regexes.tokenFormat)` where `tokenFormat` is
`/(:\[[^\]]+\]|:[a-z\-_]+)/gi`.  JavaScript `split` on a regex with one
capturing group yields the pieces between matches interleaved with the
captured matches, empty pieces included.  The matcher below finds, at each
position, first the bracketed alternative `:\[[^\]]+\]` and otherwise the
bare alternative `:[a-z\-_]+` (case-insensitive). -/

/-- A character of the class `[a-z\-_]` under the `i` flag. -/
def tokenNameChar (c : Char) : Bool :=
  (decide ('a' ≤ c) && decide (c ≤ 'z')) ||
    (decide ('A' ≤ c) && decide (c ≤ 'Z')) || c == '-' || c == '_'

/-- Try to match `(:\[[^\]]+\]|:[a-z\-_]+)` at the head of the list,
returning the match and the remainder. -/
def matchTokenAt (l : List Char) : Option (List Char × List Char) :=
  match l with
  | ':' :: rest =>
    match rest with
    | '[' :: rest2 =>
      -- the bare alternative cannot match here either: `[` is not a name
      -- character, so failure of the bracketed alternative means no match
      let inner := rest2.takeWhile (fun c => c != ']')
      if inner.isEmpty then none
      else
        match rest2.drop inner.length with
        | ']' :: rest3 => some (':' :: '[' :: (inner ++ [']']), rest3)
        | _ => none
    | _ =>
      let name := rest.takeWhile tokenNameChar
      if name.isEmpty then none else some (':' :: name, rest.drop name.length)
  | _ => none

/-- One pass of the split: fuel bounds the number of steps (each step
consumes at least one character, so one more than the input length always
suffices). -/
def splitFmtAux : Nat → List Char → List Char → List (List Char)
  | 0, acc, _ => [acc.reverse]
  | _ + 1, acc, [] => [acc.reverse]
  | fuel + 1, acc, c :: rest =>
    match matchTokenAt (c :: rest) with
    | some (m, r) => acc.reverse :: m :: splitFmtAux fuel [] r
    | none => splitFmtAux fuel (c :: acc) rest

/-- JavaScript `format.split(regexes.tokenFormat)`. -/
def splitTokenFormat (format : String) : List String :=
  (splitFmtAux (format.data.length + 1) [] format.data).map (fun l => ⟨l⟩)

structure ParsedEntry where
  tokens : List String
  isIncommingSet : Bool
deriving DecidableEq, Repr

/-- The filter/map pipeline of `extractTokens` applied to the fragments
produced by the split. -/
def extractFromFragments (fragments : List String) : ParsedEntry :=
  let kept := fragments.filter (fun token => jsTrim token != "")
  let mapped := kept.map (fun token => stripWsAll token)
  { tokens := mapped.filter (fun token => TOKENS.contains (stripBrackets token)),
    isIncommingSet := mapped.any (fun token => stripBrackets token == ":incoming") }

/-- The `extractTokens` function of src/index.ts.  The module-level
`parsedTokens` cache memoizes this pure function by exact format string; a
cache hit returns the previously computed entry, which equals the one a cold
run computes, so the cache is not modelled further. -/
def extractTokens (format : String) : ParsedEntry :=
  extractFromFragments (splitTokenFormat format)

/-! ### The compiled plan -/

/-- The closure state of a compiled format: the two segment arrays, the
response connector index (`-999` is the sentinel of the source), and the two
render-function arrays.  `logRequest` and `logResponse` mutate the arrays,
so the render functions below return the updated plan alongside the line. -/
structure Plan where
  requestOutput : List String
  responseOutput : List String
  whereTheResponseIndicatorIs : Int
  requstArgs : List RenderFn
  responseArgs : List RenderFn

/-- The body of the `tokens.forEach` loop of `compile`. -/
def compileStep (acc : Plan) (token : String) : Plan :=
  let value := stripBrackets token
  if value == ":incoming" then
    { acc with
      requestOutput := acc.requestOutput ++ [paint .gray "<--"],
      responseOutput := acc.responseOutput ++ ["-->"],
      whereTheResponseIndicatorIs := Int.ofNat acc.responseOutput.length }
  else if value == ":date" then
    { acc with
      requestOutput := acc.requestOutput ++ ["%s"],
      requstArgs := acc.requstArgs ++
        (match REQUEST_TOKENS ":date" with
         | some f => [f token]
         | none => []),
      responseOutput := acc.responseOutput ++ ["%s"],
      responseArgs := acc.responseArgs ++
        (match RESPONSE_TOKENS ":date" with
         | some f => [f token]
         | none => []) }
  else
    let acc1 :=
      match REQUEST_TOKENS value with
      | some f =>
        { acc with
          requestOutput := acc.requestOutput ++ ["%s"],
          requstArgs := acc.requstArgs ++ [f token] }
      | none => acc
    match RESPONSE_TOKENS value with
    | some f =>
      { acc1 with
        responseOutput := acc1.responseOutput ++ ["%s"],
        responseArgs := acc1.responseArgs ++ [f token] }
    | none => acc1

/-- The `compile` function of src/index.ts applied to an extraction result:
initial markers and connector reservation, then the token loop. -/
def compileEntry (e : ParsedEntry) : Plan :=
  let base : Plan :=
    if e.isIncommingSet then
      { requestOutput := [paint .gray " INCOMING "],
        responseOutput := [paint .gray " OUTGOING "],
        whereTheResponseIndicatorIs := -999,
        requstArgs := [], responseArgs := [] }
    else
      { requestOutput := [paint .gray "<--"],
        responseOutput := ["-->"],
        whereTheResponseIndicatorIs := 0,
        requstArgs := [], responseArgs := [] }
  e.tokens.foldl compileStep base

/-- The `compile` function of src/index.ts. -/
def compile (format : String) : Plan := compileEntry (extractTokens format)

/-! ### Rendering -/

/-- Append any leftover extra arguments, space-separated (`util.format`). -/
def fmtExtra : List String → List Char
  | [] => []
  | a :: as => (' ' :: a.data) ++ fmtExtra as

/-- The placeholder scan of `util.format`: the templates built by `compile`
contain `%s` as their only directive, so only `%s` (and the escape `%%`)
are interpreted; substituted values are not rescanned. -/
def fmtChars : List Char → List String → List Char
  | [], as => fmtExtra as
  | c :: t, as =>
    if c == '%' then
      match t with
      | 's' :: t2 =>
        match as with
        | a :: as2 => a.data ++ fmtChars t2 as2
        | [] => '%' :: 's' :: fmtChars t2 []
      | '%' :: t2 => '%' :: fmtChars t2 as
      | t3 => c :: fmtChars t3 as
    else c :: fmtChars t as

/-- `util.format(template, ...args)` for string arguments. -/
def formatJS (template : String) (args : List String) : String :=
  ⟨fmtChars template.data args⟩

/-- The protocol banner `chalk.bgBlue.bold` that both render closures
unshift onto their segment array. -/
def bgBadge (req : Request) : String :=
  bgBlueBold (" " ++ toUpperStr req.protocol ++ " ")

/-- The `logRequest` closure of `compile`.  The `unshift` of the banner
mutates the captured `requestOutput` array; the model returns the string
handed to `print` together with the updated plan. -/
def logRequest (p : Plan) (request : Request) (response : Response)
    (error : Option ErrObj) (now : JSDate) : String × Plan :=
  let results := p.requstArgs.map (fun fn => fn true request response error now)
  let out := bgBadge request :: p.requestOutput
  (formatJS (joinSep " " out) results, { p with requestOutput := out })

/-- The connector selection inside `logResponse`. -/
def upstreamConnector (error : Option ErrObj) (event : String)
    (statusCode : Nat) : String :=
  if error.isSome then paint .red "xxx"
  else if event == "close" then paint .yellow "-x-"
  else if 500 ≤ statusCode then paint .red "xxx"
  else if statusCode == 404 then paint .cyan "-X-"
  else paint .gray "-->"

/-- `responseOutput[i] = v` for the stored connector index (a no-op for an
out-of-range index, which does not occur for plans built by `compile`). -/
def listSetInt (l : List String) (i : Int) (v : String) : List String :=
  if i < 0 then l else l.set i.toNat v

/-- The `logResponse` closure of `compile`: write the outcome connector into
the reserved slot (when the index is not the sentinel), unshift the banner,
format, and hand the line to `print`.  Both array mutations persist in the
returned plan, as they do in the closure state of the source. -/
def logResponse (p : Plan) (request : Request) (response : Response)
    (error : Option ErrObj) (event : String) (now : JSDate) : String × Plan :=
  let results := p.responseArgs.map (fun fn => fn false request response error now)
  let out1 :=
    if p.whereTheResponseIndicatorIs != -999 then
      listSetInt p.responseOutput p.whereTheResponseIndicatorIs
        (upstreamConnector error event response.statusCode)
    else p.responseOutput
  let out := bgBadge request :: out1
  (formatJS (joinSep " " out) results, { p with responseOutput := out })

/-- The default format string. -/
def DEFAULT_FORMAT : String :=
  ":incoming :method :url :status :response-time :content-length"

/-! ### The middleware

The per-exchange orchestration of the `logger` middleware: capture a start
timestamp, store it in the `x-start-time` response header, render the
request-phase line with a null error, register `once` observers for the
`finish` and `close` response events, and on the first observer to fire run
`done`, which deregisters both observers and renders the response-phase line
with a null error and the triggering event name.  The response event stream
is modelled as a list of (event, clock-at-fire) pairs delivered by the host
server. -/

inductive Ev where
  | finish
  | close
deriving DecidableEq, Repr

def evName : Ev → String
  | .finish => "finish"
  | .close => "close"

structure MwState where
  /-- Whether the `finish` once-listener is still registered. -/
  finishListener : Bool
  /-- Whether the `close` once-listener is still registered. -/
  closeListener : Bool
  plan : Plan
  request : Request
  response : Response
  /-- Lines handed to `print` by `logResponse`, in order. -/
  responseLines : List String

/-- The `done` helper of the middleware: deregister both observers, then
render the response-phase line with a null error. -/
def mwDone (ev : Ev) (nowAtFire : JSDate) (st : MwState) : MwState :=
  let st1 := { st with finishListener := false, closeListener := false }
  let r := logResponse st1.plan st1.request st1.response none (evName ev) nowAtFire
  { st1 with plan := r.2, responseLines := st1.responseLines ++ [r.1] }

/-- Delivery of a response event: a `once` listener fires only while still
registered (`done` itself clears both registrations, so removing the firing
listener first, as `once` does, yields the same state). -/
def mwFire (st : MwState) (e : Ev × JSDate) : MwState :=
  let registered :=
    match e.1 with
    | .finish => st.finishListener
    | .close => st.closeListener
  if registered then mwDone e.1 e.2 st else st

/-- Deliver a sequence of response events. -/
def mwRun (events : List (Ev × JSDate)) (st : MwState) : MwState :=
  events.foldl mwFire st

/-- The body of the middleware returned by `logger`: set the start-time
header, render the request-phase line with a null error, and register the
two completion observers.  Returns the request-phase line (handed to
`print`) together with the armed state. -/
def middlewareStart (plan : Plan) (req : Request) (res : Response)
    (now : JSDate) (startMs : Int) : String × MwState :=
  let res1 := { res with xStartTime := some startMs }
  let r := logRequest plan req res1 none now
  (r.1, { finishListener := true, closeListener := true, plan := r.2,
          request := req, response := res1, responseLines := [] })

/-! ### Specification-side definitions

These definitions follow the words of the specification and of the claims;
they are compared with the source-derived definitions above. -/

/-- Group a reversed digit list into blocks of three (least significant
first). -/
def grp3 : List Char → List (List Char)
  | [] => []
  | [a] => [[a]]
  | [a, b] => [[a, b]]
  | a :: b :: c :: rest => [a, b, c] :: grp3 rest

/-- Thousands grouping as the specification describes it: the decimal digits
split into groups of three from the right, joined by commas. -/
def groupedNat (n : Nat) : String :=
  joinSep ","
    (((grp3 (toString n).data.reverse).map (fun l => (⟨l.reverse⟩ : String))).reverse)

/-- The Apache common log rendering the specification describes:
`DD/Mon/YYYY:HH:MM:SS +0000`, month as a three-letter English abbreviation,
day, hour, minute and second zero-padded to width two, year unpadded. -/
def apacheDateSpec (d : JSDate) : String :=
  let two : Nat → String := fun n => (if n < 10 then "0" else "") ++ toString n
  two d.utcDate ++ "/" ++ MONTHS.getD d.utcMonth "undefined" ++ "/" ++
    toString d.utcFullYear ++ ":" ++ two d.utcHours ++ ":" ++ two d.utcMinutes ++
    ":" ++ two d.utcSeconds ++ " +0000"

/-- The client-address resolution chain as the claim states it: one ordered
candidate list — client-IP header, the port-stripped entries of the
forwarded-for header, real-IP header, the two legacy headers, socket peer
address, deprecated connection peer address — filtered by the `ip`
validator, first hit wins, `"-"` otherwise. -/
def clientAddressSpec (req : Request) : String :=
  match req.headers with
  | none => "-"
  | some h =>
    let opt : Option String → List String := fun o =>
      match o with
      | some s => [s]
      | none => []
    let xffEntries : List String :=
      match h.xForwardedFor with
      | none => []
      | some v => if v == "" then [] else (jsSplit ',' v).map normalizeXffEntry
    let candidates :=
      opt h.xClientIp ++ xffEntries ++ opt h.xRealIp ++ opt h.xForwarded ++
        opt h.forwardedFor ++
        (match req.socket with
         | some sock => opt sock.remoteAddress
         | none => []) ++
        (match req.connection with
         | some conn => opt conn.remoteAddress
         | none => [])
    match candidates.find? (fun s => ip (some s)) with
    | some s => s
    | none => "-"

/-- Substitute placeholder segments by argument values, in order: the i-th
`%s` segment becomes the i-th argument, other segments stay. -/
def substSegs : List String → List String → List String
  | [], _ => []
  | s :: rest, args =>
    if s == "%s" then
      match args with
      | a :: as => a :: substSegs rest as
      | [] => s :: substSegs rest []
    else s :: substSegs rest args

/-- A template segment is either the placeholder `%s` or free of `%`. -/
def segOK (s : String) : Bool :=
  s == "%s" || s.data.all (fun c => c != '%')

/-- Number of placeholder segments. -/
def countPH (segs : List String) : Nat :=
  (segs.filter (fun s => s == "%s")).length

/-! ### Concrete fixtures used by witnesses and counterexamples -/

def sampleDate : JSDate :=
  { epochMs := 1704164645010, utcDate := 2, utcHours := 3, utcMinutes := 4,
    utcSeconds := 5, utcFullYear := 2024, utcMonth := 0,
    localeDateString := "1/2/2024", localeTimeString := "3:04:05 AM" }

def emptyHeaders : Headers :=
  { xClientIp := none, xForwardedFor := none, xRealIp := none,
    xForwarded := none, forwardedFor := none, referer := none,
    referrer := none, userAgent := none }

def sampleReq : Request :=
  { method := "GET", url := "/users", originalUrl := none,
    headers := some emptyHeaders, httpVersionMajor := 1, httpVersionMinor := 1,
    protocol := "http", socket := none, connection := none }

def sampleRes : Response :=
  { statusCode := 200, contentLength := none, xStartTime := some 1704164645000 }

/-- The request of the IP fallback example: only `x-forwarded-for` is set. -/
def xffReq : Request :=
  { sampleReq with
    headers := some { emptyHeaders with
      xForwardedFor := some "not-an-ip, 10.0.0.5:1234" } }

/-! ### Helper lemmas about the compiler loop -/

theorem compileStep_no_incoming (acc : Plan) (t : String)
    (h : stripBrackets t ≠ ":incoming") :
    (compileStep acc t).whereTheResponseIndicatorIs = acc.whereTheResponseIndicatorIs
    ∧ ∃ l, (compileStep acc t).responseOutput = acc.responseOutput ++ l := by
  have hb : (stripBrackets t == ":incoming") = false := by
    simpa using h
  unfold compileStep
  simp only [hb, Bool.false_eq_true, if_false]
  by_cases hd : (stripBrackets t == ":date") = true
  · simp only [hd, if_true]
    exact ⟨by simp, ["%s"], by simp⟩
  · simp only [hd, Bool.false_eq_true, if_false]
    rcases hq : REQUEST_TOKENS (stripBrackets t) with _ | f <;>
      rcases hs : RESPONSE_TOKENS (stripBrackets t) with _ | g <;>
        simp only [hq, hs]
    · exact ⟨by simp, [], by simp⟩
    · exact ⟨by simp, ["%s"], by simp⟩
    · exact ⟨by simp, [], by simp⟩
    · exact ⟨by simp, ["%s"], by simp⟩

theorem foldl_no_incoming : ∀ (tokens : List String) (acc : Plan),
    (∀ t ∈ tokens, stripBrackets t ≠ ":incoming") →
    ((tokens.foldl compileStep acc).whereTheResponseIndicatorIs = acc.whereTheResponseIndicatorIs
     ∧ ∃ l, (tokens.foldl compileStep acc).responseOutput = acc.responseOutput ++ l) := by
  intro tokens
  induction tokens with
  | nil => exact fun acc _ => ⟨rfl, [], by simp⟩
  | cons t rest ih =>
    intro acc h
    have h1 := compileStep_no_incoming acc t (h t (List.mem_cons_self t rest))
    have h2 := ih (compileStep acc t) (fun x hx => h x (List.mem_cons_of_mem t hx))
    rw [List.foldl_cons]
    refine ⟨by rw [h2.1, h1.1], ?_⟩
    rcases h1.2 with ⟨l1, hl1⟩
    rcases h2.2 with ⟨l2, hl2⟩
    refine ⟨l1 ++ l2, ?_⟩
    rw [hl2, hl1, List.append_assoc]

theorem tokens_no_incoming_of_flag_false (frags : List String)
    (h : (extractFromFragments frags).isIncommingSet = false) :
    ∀ t ∈ (extractFromFragments frags).tokens, stripBrackets t ≠ ":incoming" := by
  intro t ht heq
  simp only [extractFromFragments, List.mem_filter] at h ht
  rw [List.any_eq_false] at h
  exact absurd (by simpa using heq) (by simpa using h _ ht.1)

/-! ### Helper lemmas about thousands grouping -/

/-- The comma insertion of the number regex, stated on a pure digit list:
insert a comma after a digit exactly when a positive multiple of three digits
follows. -/
def gIns : List Char → List Char
  | [] => []
  | c :: rest =>
    if 3 ≤ rest.length && rest.length % 3 == 0 then c :: ',' :: gIns rest
    else c :: gIns rest

/-- Whether the head of the list (if any) is not a digit. -/
def headNotDigit : List Char → Bool
  | [] => true
  | c :: _ => !c.isDigit

theorem digitChar_isDigit : ∀ m, m < 10 → (Nat.digitChar m).isDigit = true := by decide

theorem toDigitsCore_all_digits : ∀ (f n : Nat) (ds : List Char),
    (∀ c ∈ ds, c.isDigit = true) →
    ∀ c ∈ Nat.toDigitsCore 10 f n ds, c.isDigit = true := by
  intro f
  induction f with
  | zero => intro n ds h; exact h
  | succ f ih =>
    intro n ds h
    show ∀ c ∈ (if n / 10 = 0 then _ :: ds else Nat.toDigitsCore 10 f (n / 10) (_ :: ds)),
      c.isDigit = true
    have hd : (Nat.digitChar (n % 10)).isDigit = true :=
      digitChar_isDigit _ (Nat.mod_lt _ (by decide))
    by_cases hz : n / 10 = 0
    · simp only [hz, if_true]
      intro c hc
      rcases List.mem_cons.mp hc with rfl | hc
      · exact hd
      · exact h c hc
    · simp only [hz, if_false]
      refine ih (n / 10) _ ?_
      intro c hc
      rcases List.mem_cons.mp hc with rfl | hc
      · exact hd
      · exact h c hc

theorem natToString_all_digits (n : Nat) : ∀ c ∈ (toString n).data, c.isDigit = true := by
  show ∀ c ∈ Nat.toDigitsCore 10 (n + 1) n [], c.isDigit = true
  exact toDigitsCore_all_digits (n + 1) n [] (by intro c hc; cases hc)

theorem digitRunLen_append : ∀ (ds sfx : List Char),
    (∀ c ∈ ds, c.isDigit = true) → headNotDigit sfx = true →
    digitRunLen (ds ++ sfx) = ds.length := by
  intro ds
  induction ds with
  | nil =>
    intro sfx _ hs
    cases sfx with
    | nil => rfl
    | cons c rest =>
      have : c.isDigit = false := by simpa [headNotDigit] using hs
      simp [digitRunLen, this]
  | cons c rest ih =>
    intro sfx h hs
    have hc : c.isDigit = true := h c (List.mem_cons_self c rest)
    simp only [List.cons_append, digitRunLen, hc, if_true, List.length_cons, List.append_eq]
    rw [ih sfx (fun x hx => h x (List.mem_cons_of_mem c hx)) hs]

theorem groupDigits_append : ∀ (ds sfx : List Char),
    (∀ c ∈ ds, c.isDigit = true) → headNotDigit sfx = true →
    groupDigits (ds ++ sfx) = gIns ds ++ groupDigits sfx := by
  intro ds
  induction ds with
  | nil => intro sfx _ _; rfl
  | cons c rest ih =>
    intro sfx h hs
    have hc : c.isDigit = true := h c (List.mem_cons_self c rest)
    have hrest : ∀ x ∈ rest, x.isDigit = true := fun x hx => h x (List.mem_cons_of_mem c hx)
    have hrun : digitRunLen (rest ++ sfx) = rest.length := digitRunLen_append rest sfx hrest hs
    simp only [List.cons_append, groupDigits, gIns, List.append_eq, hrun, hc, Bool.true_and]
    by_cases hcond : (decide (3 ≤ rest.length) && rest.length % 3 == 0) = true
    · simp only [hcond, if_true, List.cons_append]
      rw [ih sfx hrest hs]
    · simp only [Bool.not_eq_true] at hcond
      simp only [hcond, Bool.false_eq_true, if_false, List.cons_append]
      rw [ih sfx hrest hs]

theorem gIns_cons (c : Char) (rest : List Char) :
    gIns (c :: rest) =
      if 3 ≤ rest.length && rest.length % 3 == 0 then c :: ',' :: gIns rest
      else c :: gIns rest := rfl

theorem gIns_append3 : ∀ (xs : List Char) (a b c : Char), xs ≠ [] →
    gIns (xs ++ [a, b, c]) = gIns xs ++ ',' :: [a, b, c] := by
  intro xs
  induction xs with
  | nil => intro a b c h; exact absurd rfl h
  | cons x xs' ih =>
    intro a b c _
    cases xs' with
    | nil => simp [gIns]
    | cons y ys =>
      rw [List.cons_append, gIns_cons, gIns_cons]
      have hlen : ((y :: ys) ++ [a, b, c]).length = ys.length + 4 := by simp
      rw [hlen]
      simp only [List.length_cons]
      by_cases hmod : (ys.length + 1) % 3 = 0
      · have hc1 : (decide (3 ≤ ys.length + 4) && (ys.length + 4) % 3 == 0) = true := by
          simp only [Bool.and_eq_true, decide_eq_true_eq, beq_iff_eq]
          omega
        have hc2 : (decide (3 ≤ ys.length + 1) && (ys.length + 1) % 3 == 0) = true := by
          simp only [Bool.and_eq_true, decide_eq_true_eq, beq_iff_eq]
          omega
        simp only [hc1, hc2, if_true]
        rw [ih a b c (by simp)]
        rfl
      · have hc1 : (decide (3 ≤ ys.length + 4) && (ys.length + 4) % 3 == 0) = false := by
          rw [Bool.eq_false_iff]
          simp only [ne_eq, Bool.and_eq_true, decide_eq_true_eq, beq_iff_eq, not_and]
          omega
        have hc2 : (decide (3 ≤ ys.length + 1) && (ys.length + 1) % 3 == 0) = false := by
          rw [Bool.eq_false_iff]
          simp only [ne_eq, Bool.and_eq_true, decide_eq_true_eq, beq_iff_eq, not_and]
          omega
        simp only [hc1, hc2, Bool.false_eq_true, if_false]
        rw [ih a b c (by simp)]
        rfl

theorem joinSep_append_one : ∀ (s : String) (xs : List String) (y : String), xs ≠ [] →
    joinSep s (xs ++ [y]) = joinSep s xs ++ s ++ y := by
  intro s xs
  induction xs with
  | nil => intro y h; exact absurd rfl h
  | cons x xs' ih =>
    intro y _
    cases xs' with
    | nil => rfl
    | cons z zs =>
      show x ++ s ++ joinSep s ((z :: zs) ++ [y]) = (x ++ s ++ joinSep s (z :: zs)) ++ s ++ y
      rw [ih y (by simp)]
      simp [String.append_assoc]

theorem grp3_nonempty : ∀ (r : List Char), r ≠ [] → grp3 r ≠ [] := by
  intro r h
  match r with
  | [a] => simp [grp3]
  | [a, b] => simp [grp3]
  | a :: b :: c :: rest => simp [grp3]

theorem grp3_join : ∀ r : List Char,
    (joinSep "," (((grp3 r).map (fun l => (⟨l.reverse⟩ : String))).reverse)).data
      = gIns r.reverse := by
  intro r
  induction r using grp3.induct with
  | case1 => rfl
  | case2 a => rfl
  | case3 a b => rfl
  | case4 a b c rest ih =>
    rw [show grp3 (a :: b :: c :: rest) = [a, b, c] :: grp3 rest from rfl,
      List.map_cons, List.reverse_cons]
    by_cases hr : rest = []
    · subst hr
      simp [grp3, gIns, joinSep]
    · have hne : ((grp3 rest).map (fun l => (⟨l.reverse⟩ : String))).reverse ≠ [] := by
        simp [grp3_nonempty rest hr]
      rw [joinSep_append_one "," _ _ hne]
      rw [show (a :: b :: c :: rest).reverse = rest.reverse ++ [c, b, a] from by simp]
      rw [gIns_append3 rest.reverse c b a (by simp [hr])]
      rw [String.data_append, String.data_append, ih]
      simp

theorem splitOnCh_no_sep : ∀ (sep : Char) (l : List Char), (∀ c ∈ l, c ≠ sep) →
    splitOnCh sep l = [l] := by
  intro sep l
  induction l with
  | nil => intro _; rfl
  | cons c rest ih =>
    intro h
    have hc : (c == sep) = false := by
      simpa using h c (List.mem_cons_self c rest)
    show (let tail := splitOnCh sep rest;
      if c == sep then [] :: tail else
        match tail with
        | [] => [[c]]
        | p :: ps => (c :: p) :: ps) = [c :: rest]
    rw [ih (fun x hx => h x (List.mem_cons_of_mem c hx))]
    simp [hc]

theorem humanize_digits_sfx (n : Nat) (sfx : String)
    (hnd : headNotDigit sfx.data = true) (hdot : ∀ c ∈ sfx.data, c ≠ '.')
    (hgd : groupDigits sfx.data = sfx.data) :
    humanize (toString n ++ sfx) = groupedNat n ++ sfx := by
  have hall : ∀ c ∈ (toString n ++ sfx).data, c ≠ '.' := by
    intro c hc
    rw [String.data_append, List.mem_append] at hc
    rcases hc with hc | hc
    · have := natToString_all_digits n c hc
      intro heq
      rw [heq] at this
      exact absurd this (by decide)
    · exact hdot c hc
  have hsplit : jsSplit '.' (toString n ++ sfx) = [toString n ++ sfx] := by
    unfold jsSplit
    rw [splitOnCh_no_sep '.' _ hall]
    rfl
  unfold humanize
  rw [hsplit]
  show (⟨groupDigits (toString n ++ sfx).data⟩ : String) = groupedNat n ++ sfx
  apply congrArg String.mk
  rw [String.data_append]
  rw [groupDigits_append _ _ (natToString_all_digits n) hnd, hgd]
  rw [grp3_join, List.reverse_reverse]

theorem humanize_ms (n : Nat) : humanize (toString n ++ "ms") = groupedNat n ++ "ms" :=
  humanize_digits_sfx n "ms" (by decide) (by decide) (by decide)

theorem humanize_sec (n : Nat) : humanize (toString n ++ "s") = groupedNat n ++ "s" :=
  humanize_digits_sfx n "s" (by decide) (by decide) (by decide)

theorem int_toString_nonneg (i : Int) (h : 0 ≤ i) : toString i = toString i.toNat := by
  rcases Int.eq_ofNat_of_zero_le h with ⟨n, rfl⟩
  rfl

/-! ### Helper lemmas about the middleware observers -/

theorem mwRun_cleared : ∀ (es : List (Ev × JSDate)) (st : MwState),
    st.finishListener = false → st.closeListener = false → mwRun es st = st := by
  intro es
  induction es with
  | nil => intro st _ _; rfl
  | cons e rest ih =>
    intro st h1 h2
    have hfe : mwFire st e = st := by
      rcases e with ⟨ev, d⟩
      cases ev <;> simp [mwFire, h1, h2]
    show mwRun rest (mwFire st e) = st
    rw [hfe]
    exact ih st h1 h2

/-! ### Helper lemmas about the IP resolution chain -/

theorem ip_dash_false : ip (some "-") = false := by decide

theorem findOpt_cons (o : Option String) (rest : List String) :
    ((match o with | some s => [s] | none => []) ++ rest).find? (fun s => ip (some s))
    = if ip o = true then some (o.getD "-") else rest.find? (fun s => ip (some s)) := by
  cases o with
  | none => simp [ip]
  | some s =>
    by_cases hv : ip (some s) = true
    · simp [hv]
    · simp only [Bool.not_eq_true] at hv
      simp [hv]

theorem getIp_tail_chain (req : Request) (h : Headers) :
    (if ip h.xRealIp = true then h.xRealIp.getD "-"
     else if ip h.xForwarded = true then h.xForwarded.getD "-"
     else if ip h.forwardedFor = true then h.forwardedFor.getD "-"
     else if (match req.socket with
         | some sock => ip sock.remoteAddress
         | none => false) = true then
       (req.socket.bind Socket.remoteAddress).getD "-"
     else match req.connection with
       | some conn => if ip conn.remoteAddress = true then conn.remoteAddress.getD "-" else "-"
       | none => "-")
    = match ((match h.xRealIp with | some s => [s] | none => []) ++
        ((match h.xForwarded with | some s => [s] | none => []) ++
        ((match h.forwardedFor with | some s => [s] | none => []) ++
        ((match req.socket with
          | some sock => (match sock.remoteAddress with | some s => [s] | none => [])
          | none => []) ++
         (match req.connection with
          | some sock => (match sock.remoteAddress with | some s => [s] | none => [])
          | none => []))))).find? (fun s => ip (some s)) with
      | some s => s
      | none => "-" := by
  rw [findOpt_cons h.xRealIp]
  by_cases h3 : ip h.xRealIp = true
  · simp only [h3, if_true]
  · simp only [Bool.not_eq_true] at h3
    simp only [h3, Bool.false_eq_true, if_false]
    rw [findOpt_cons h.xForwarded]
    by_cases h4 : ip h.xForwarded = true
    · simp only [h4, if_true]
    · simp only [Bool.not_eq_true] at h4
      simp only [h4, Bool.false_eq_true, if_false]
      rw [findOpt_cons h.forwardedFor]
      by_cases h5 : ip h.forwardedFor = true
      · simp only [h5, if_true]
      · simp only [Bool.not_eq_true] at h5
        simp only [h5, Bool.false_eq_true, if_false]
        cases hS : req.socket with
        | none =>
          simp only [Bool.false_eq_true, if_false, List.nil_append, Option.bind]
          cases hC : req.connection with
          | none => rfl
          | some conn =>
            cases hcra : conn.remoteAddress with
            | none => simp [hcra, show ip none = false from rfl]
            | some s =>
              by_cases h7 : ip (some s) = true
              · simp [hcra, h7]
              · simp only [Bool.not_eq_true] at h7
                simp [hcra, h7]
        | some sock =>
          cases hsra : sock.remoteAddress with
          | none =>
            simp only [hsra, show ip none = false from rfl, Bool.false_eq_true, if_false,
              List.nil_append]
            cases hC : req.connection with
            | none => rfl
            | some conn =>
              cases hcra : conn.remoteAddress with
              | none => simp [hcra, show ip none = false from rfl]
              | some s =>
                by_cases h7 : ip (some s) = true
                · simp [hcra, h7]
                · simp only [Bool.not_eq_true] at h7
                  simp [hcra, h7]
          | some s =>
            by_cases h6 : ip (some s) = true
            · simp [hsra, h6, Option.bind]
            · simp only [Bool.not_eq_true] at h6
              simp only [hsra, h6, Bool.false_eq_true, if_false, List.singleton_append,
                List.find?_cons]
              cases hC : req.connection with
              | none => rfl
              | some conn =>
                cases hcra : conn.remoteAddress with
                | none => simp [hcra, show ip none = false from rfl]
                | some s2 =>
                  by_cases h7 : ip (some s2) = true
                  · simp [hcra, h7]
                  · simp only [Bool.not_eq_true] at h7
                    simp [hcra, h7]

/-! ### Helper lemmas about util.format substitution -/

theorem fmtChars_nonpct (c : Char) (t : List Char) (as : List String)
    (h : (c == '%') = false) : fmtChars (c :: t) as = c :: fmtChars t as := by
  rw [fmtChars.eq_def]
  simp only [h, Bool.false_eq_true, if_false]

theorem fmtChars_ph (t : List Char) (a : String) (as : List String) :
    fmtChars ('%' :: 's' :: t) (a :: as) = a.data ++ fmtChars t as := by
  rw [fmtChars.eq_def]
  simp only [beq_self_eq_true, if_true]

theorem fmt_nopct_prefix : ∀ (xs t : List Char) (args : List String),
    (∀ c ∈ xs, (c == '%') = false) →
    fmtChars (xs ++ t) args = xs ++ fmtChars t args := by
  intro xs
  induction xs with
  | nil => intro t args _; rfl
  | cons c rest ih =>
    intro t args h
    rw [List.cons_append, fmtChars_nonpct c _ args (h c (List.mem_cons_self c rest))]
    rw [ih t args (fun x hx => h x (List.mem_cons_of_mem c hx))]
    rfl

theorem substSegs_nonph (s : String) (rest args : List String)
    (h : (s == "%s") = false) : substSegs (s :: rest) args = s :: substSegs rest args := by
  simp [substSegs, h]

theorem substSegs_cons_shape (s : String) (rest args : List String) :
    ∃ y ys, substSegs (s :: rest) args = y :: ys := by
  unfold substSegs
  by_cases h : (s == "%s") = true
  · simp only [h, if_true]
    cases args with
    | nil => exact ⟨s, substSegs rest [], rfl⟩
    | cons a as => exact ⟨a, substSegs rest as, rfl⟩
  · simp only [Bool.not_eq_true] at h
    simp only [h, Bool.false_eq_true, if_false]
    exact ⟨s, substSegs rest args, rfl⟩

theorem countPH_cons (s : String) (rest : List String) :
    countPH (s :: rest) = (if s == "%s" then 1 else 0) + countPH rest := by
  by_cases h : (s == "%s") = true
  · simp [countPH, List.filter, h, Nat.add_comm]
  · simp only [Bool.not_eq_true] at h
    simp [countPH, List.filter, h]

theorem segOK_nonph (s : String) (h : segOK s = true) (hph : (s == "%s") = false) :
    ∀ c ∈ s.data, (c == '%') = false := by
  intro c hc
  unfold segOK at h
  rw [hph, Bool.false_or] at h
  have := List.all_eq_true.mp h c hc
  simpa using this

theorem joinSep_cons_cons (x y : String) (rest : List String) :
    (joinSep " " (x :: y :: rest)).data = x.data ++ ' ' :: (joinSep " " (y :: rest)).data := by
  show (x ++ " " ++ joinSep " " (y :: rest)).data = _
  rw [String.data_append, String.data_append]
  simp

/-- Substituting the placeholder segments of a well-formed segment list into
the space-joined template (via the util.format scan) yields the space-join of
the substituted segments: placeholders are filled with the argument values in
order, other segments are copied verbatim. -/
theorem fmt_subst : ∀ (segs args : List String),
    (∀ s ∈ segs, segOK s = true) → countPH segs = args.length →
    fmtChars (joinSep " " segs).data args = (joinSep " " (substSegs segs args)).data := by
  intro segs
  induction segs with
  | nil =>
    intro args _ hc
    cases args with
    | nil => rfl
    | cons a as => simp [countPH] at hc
  | cons s rest ih =>
    intro args h hc
    have hs : segOK s = true := h s (List.mem_cons_self s rest)
    have hrest : ∀ x ∈ rest, segOK x = true := fun x hx => h x (List.mem_cons_of_mem s hx)
    cases rest with
    | nil =>
      by_cases hph : (s == "%s") = true
      · have hseq : s = "%s" := by simpa using hph
        subst hseq
        rw [countPH_cons] at hc
        simp only [countPH, List.filter, if_true, List.length_nil] at hc
        cases args with
        | nil => simp at hc
        | cons a as =>
          cases as with
          | nil =>
            show fmtChars ('%' :: 's' :: []) [a] = _
            rw [fmtChars_ph]
            show a.data ++ [] = (joinSep " " [a]).data
            simp [joinSep]
          | cons b bs => simp at hc
      · simp only [Bool.not_eq_true] at hph
        have h0 : countPH [s] = 0 := by
          rw [countPH_cons]
          simp [hph, countPH, List.filter]
        rw [h0] at hc
        cases args with
        | cons a as => simp at hc
        | nil =>
          show fmtChars (joinSep " " [s]).data [] = (joinSep " " (substSegs [s] [])).data
          rw [substSegs_nonph s [] [] hph]
          show fmtChars s.data [] = (joinSep " " [s]).data
          have := fmt_nopct_prefix s.data [] [] (segOK_nonph s hs hph)
          rw [List.append_nil] at this
          rw [this]
          show s.data ++ [] = s.data
          simp
    | cons s2 rest2 =>
      rw [joinSep_cons_cons]
      by_cases hph : (s == "%s") = true
      · have hseq : s = "%s" := by simpa using hph
        subst hseq
        rw [countPH_cons, if_pos (by decide)] at hc
        cases args with
        | nil => simp at hc
        | cons a as =>
          have hc2 : countPH (s2 :: rest2) = as.length := by
            simp only [List.length_cons] at hc
            omega
          show fmtChars ('%' :: 's' :: (' ' :: (joinSep " " (s2 :: rest2)).data)) (a :: as) = _
          rw [fmtChars_ph]
          rw [fmtChars_nonpct ' ' _ as (by decide)]
          rw [ih as hrest hc2]
          rcases substSegs_cons_shape s2 rest2 as with ⟨y, ys, hyy⟩
          rw [show substSegs ("%s" :: s2 :: rest2) (a :: as) = a :: substSegs (s2 :: rest2) as from rfl]
          rw [hyy, joinSep_cons_cons, ← hyy]
      · simp only [Bool.not_eq_true] at hph
        have hc2 : countPH (s2 :: rest2) = args.length := by
          rw [countPH_cons, hph] at hc
          simpa using hc
        have hpre := fmt_nopct_prefix s.data (' ' :: (joinSep " " (s2 :: rest2)).data) args
          (segOK_nonph s hs hph)
        rw [show s.data ++ ' ' :: (joinSep " " (s2 :: rest2)).data
            = s.data ++ (' ' :: (joinSep " " (s2 :: rest2)).data) from rfl, hpre]
        rw [fmtChars_nonpct ' ' _ args (by decide)]
        rw [ih args hrest hc2]
        rw [substSegs_nonph s (s2 :: rest2) args hph]
        rcases substSegs_cons_shape s2 rest2 args with ⟨y, ys, hyy⟩
        rw [hyy, joinSep_cons_cons, ← hyy]

/-! ### Helper lemmas: well-formedness of compiled plans -/

/-- Invariant of the compiler loop: each segment array is made of `%s`
placeholders and percent-free markers, and placeholder counts match the
render-function array lengths. -/
def planOK (p : Plan) : Prop :=
  (∀ s ∈ p.requestOutput, segOK s = true)
  ∧ countPH p.requestOutput = p.requstArgs.length
  ∧ (∀ s ∈ p.responseOutput, segOK s = true)
  ∧ countPH p.responseOutput = p.responseArgs.length

theorem countPH_append (l1 l2 : List String) :
    countPH (l1 ++ l2) = countPH l1 + countPH l2 := by
  simp [countPH, List.filter_append]

theorem segOK_append_one (l : List String) (m : String)
    (hl : ∀ s ∈ l, segOK s = true) (hm : segOK m = true) :
    ∀ s ∈ l ++ [m], segOK s = true := by
  intro s hs
  rcases List.mem_append.mp hs with hs | hs
  · exact hl s hs
  · rcases List.mem_singleton.mp hs with rfl
    exact hm

theorem compileStep_planOK (acc : Plan) (t : String) (h : planOK acc) :
    planOK (compileStep acc t) := by
  rcases h with ⟨h1, h2, h3, h4⟩
  unfold compileStep
  by_cases hi : (stripBrackets t == ":incoming") = true
  · simp only [hi, if_true]
    refine ⟨segOK_append_one _ _ h1 (by decide), ?_,
      segOK_append_one _ _ h3 (by decide), ?_⟩
    · rw [countPH_append, show countPH [paint Color.gray "<--"] = 0 from by decide, h2]
      simp
    · rw [countPH_append, show countPH ["-->"] = 0 from by decide, h4]
      simp
  · simp only [Bool.not_eq_true] at hi
    simp only [hi, Bool.false_eq_true, if_false]
    by_cases hd : (stripBrackets t == ":date") = true
    · simp only [hd, if_true]
      refine ⟨segOK_append_one _ _ h1 (by decide), ?_,
        segOK_append_one _ _ h3 (by decide), ?_⟩
      · rw [countPH_append, show countPH ["%s"] = 1 from by decide, h2]
        rw [show REQUEST_TOKENS ":date" = some (fun token => interpolate token "gray") from rfl]
        simp
      · rw [countPH_append, show countPH ["%s"] = 1 from by decide, h4]
        rw [show RESPONSE_TOKENS ":date" = some (fun token => interpolate token "gray") from rfl]
        simp
    · simp only [hd, Bool.false_eq_true, if_false]
      rcases hq : REQUEST_TOKENS (stripBrackets t) with _ | f <;>
        rcases hs : RESPONSE_TOKENS (stripBrackets t) with _ | g <;>
          simp only [hq, hs]
      · exact ⟨h1, h2, h3, h4⟩
      · refine ⟨h1, h2, segOK_append_one _ _ h3 (by decide), ?_⟩
        rw [countPH_append, show countPH ["%s"] = 1 from by decide, h4]
        simp
      · refine ⟨segOK_append_one _ _ h1 (by decide), ?_, h3, h4⟩
        rw [countPH_append, show countPH ["%s"] = 1 from by decide, h2]
        simp
      · refine ⟨segOK_append_one _ _ h1 (by decide), ?_,
          segOK_append_one _ _ h3 (by decide), ?_⟩
        · rw [countPH_append, show countPH ["%s"] = 1 from by decide, h2]
          simp
        · rw [countPH_append, show countPH ["%s"] = 1 from by decide, h4]
          simp

theorem compileEntry_planOK (e : ParsedEntry) : planOK (compileEntry e) := by
  unfold compileEntry
  have hbase : ∀ b : Plan, planOK b → planOK (e.tokens.foldl compileStep b) := by
    intro b hb
    induction e.tokens generalizing b with
    | nil => exact hb
    | cons t rest ih =>
      rw [List.foldl_cons]
      exact ih (compileStep b t) (compileStep_planOK b t hb)
  apply hbase
  by_cases hinc : e.isIncommingSet = true
  · simp only [hinc, if_true]
    refine ⟨?_, by decide, ?_, by decide⟩ <;>
      (intro s hs; rcases List.mem_singleton.mp hs with rfl; decide)
  · simp only [Bool.not_eq_true] at hinc
    simp only [hinc, Bool.false_eq_true, if_false]
    refine ⟨?_, by decide, ?_, by decide⟩ <;>
      (intro s hs; rcases List.mem_singleton.mp hs with rfl; decide)

theorem compileStep_requstArgs (acc : Plan) (t : String) :
    (compileStep acc t).requstArgs = acc.requstArgs ++
      (match (if stripBrackets t == ":incoming" then none
              else REQUEST_TOKENS (stripBrackets t)) with
       | some f => [f t]
       | none => []) := by
  unfold compileStep
  by_cases hi : (stripBrackets t == ":incoming") = true
  · simp only [hi, if_true]
    simp
  · simp only [hi, Bool.false_eq_true, if_false]
    by_cases hd : (stripBrackets t == ":date") = true
    · have hdq : stripBrackets t = ":date" := by simpa using hd
      simp only [hd, if_true, hdq]
      rfl
    · simp only [hd, Bool.false_eq_true, if_false]
      rcases hq : REQUEST_TOKENS (stripBrackets t) with _ | f <;>
        rcases hs : RESPONSE_TOKENS (stripBrackets t) with _ | g <;>
          simp only [hq, hs] <;> simp

theorem foldl_requstArgs : ∀ (tokens : List String) (acc : Plan),
    (tokens.foldl compileStep acc).requstArgs = acc.requstArgs ++
      tokens.filterMap (fun token =>
        (if stripBrackets token == ":incoming" then none
         else REQUEST_TOKENS (stripBrackets token)).map (fun f => f token)) := by
  intro tokens
  induction tokens with
  | nil => intro acc; simp
  | cons t rest ih =>
    intro acc
    rw [List.foldl_cons, ih, compileStep_requstArgs, List.filterMap_cons]
    rcases hq : (if stripBrackets t == ":incoming" then none
        else REQUEST_TOKENS (stripBrackets t)) with _ | f
    · simp
    · simp [List.append_assoc]

theorem req_tokens_incoming_none :
    (fun token => (if stripBrackets token == ":incoming" then none
      else REQUEST_TOKENS (stripBrackets token)).map (fun f => f token))
    = (fun token => (REQUEST_TOKENS (stripBrackets token)).map (fun f => f token)) := by
  funext token
  by_cases h : (stripBrackets token == ":incoming") = true
  · have heq : stripBrackets token = ":incoming" := by simpa using h
    rw [h, heq]
    rfl
  · simp only [Bool.not_eq_true] at h
    rw [h]
    simp

theorem bgBadge_ne_ph (req : Request) : ((bgBadge req) == "%s") = false := by
  apply Bool.eq_false_iff.mpr
  intro heq
  have h2 := congrArg String.length (eq_of_beq heq)
  unfold bgBadge bgBlueBold at h2
  simp [String.length_append, show (" ".length) = 1 from by decide,
    show ("\x1b[44m\x1b[1m".length) = 9 from by decide,
    show ("\x1b[22m\x1b[49m".length) = 10 from by decide,
    show ("%s".length) = 2 from by decide] at h2

theorem bgBadge_segOK (req : Request)
    (hp : ∀ c ∈ (toUpperStr req.protocol).data, (c == '%') = false) :
    segOK (bgBadge req) = true := by
  unfold segOK
  rw [Bool.or_eq_true]
  right
  unfold bgBadge bgBlueBold
  rw [String.data_append, String.data_append, String.data_append, String.data_append]
  rw [List.all_append, List.all_append, List.all_append, List.all_append]
  simp only [Bool.and_eq_true]
  refine ⟨⟨by decide, ⟨⟨by decide, ?_⟩, by decide⟩⟩, by decide⟩
  rw [List.all_eq_true]
  intro c hc
  simpa using hp c hc

/-! ## The claims -/

/-- C1: the claim says rendering never mutates a compiled Plan and that
repeated renders with identical inputs yield identical lines.  The code
contradicts this: each render closure unshifts the protocol banner onto the
captured segment array, so the first request-phase render already mutates
the plan, and a second render with identical inputs yields a different line
(two banners); the response-phase render drifts the same way, additionally
overwriting the wrong slot with the connector once the array has shifted.
This theorem evaluates the embedded code at the failing input: the plan
compiled from the default format, rendered twice with identical inputs. -/
theorem c1_render_mutates_plan :
    (logRequest (compile DEFAULT_FORMAT) sampleReq sampleRes none sampleDate).2.requestOutput
      ≠ (compile DEFAULT_FORMAT).requestOutput
    ∧ (logRequest (compile DEFAULT_FORMAT) sampleReq sampleRes none sampleDate).1
      ≠ (logRequest (logRequest (compile DEFAULT_FORMAT) sampleReq sampleRes none sampleDate).2
          sampleReq sampleRes none sampleDate).1
    ∧ (logResponse (compile DEFAULT_FORMAT) sampleReq sampleRes none "finish" sampleDate).1
      ≠ (logResponse (logResponse (compile DEFAULT_FORMAT) sampleReq sampleRes none "finish" sampleDate).2
          sampleReq sampleRes none "finish" sampleDate).1 := by
  refine ⟨?_, ?_, ?_⟩ <;> decide

/-- C2 counterexample: the claim says every non-whitespace literal fragment
of the format string appears in the rendered line.  The format string
"hello :method world" contains the literal fragment "hello", but the
rendered request-phase line does not: the compiler keeps only vocabulary
tokens and drops every literal fragment. -/
theorem c2_literal_fragment_dropped :
    ("hello".data <:+: "hello :method world".data)
    ∧ ¬ ("hello".data <:+:
        ((logRequest (compile "hello :method world") sampleReq sampleRes none sampleDate).1).data) := by
  constructor <;> decide

/-- C2 (amended): placeholder values do appear in the rendered line in the
same order as their tokens appear in the format string — the line is the
space-join of the protocol banner and the compiled segments with the i-th
placeholder replaced by the i-th rendered value, and the render-function
array lists exactly the per-token render functions in extraction order
(extraction preserves source order) — but every literal fragment is dropped,
none is interleaved into the output.  The hypothesis excludes a percent sign
in the uppercased protocol banner, which would be consumed by the
util.format scan. -/
theorem c2_placeholder_order :
    ∀ (format : String) (req : Request) (res : Response) (err : Option ErrObj)
      (now : JSDate),
    (∀ c ∈ (toUpperStr req.protocol).data, (c == '%') = false) →
    (logRequest (compile format) req res err now).1
      = joinSep " " (bgBadge req :: substSegs (compile format).requestOutput
          ((compile format).requstArgs.map (fun fn => fn true req res err now)))
    ∧ (compile format).requstArgs
      = (extractTokens format).tokens.filterMap
          (fun token => (REQUEST_TOKENS (stripBrackets token)).map (fun f => f token)) := by
  intro format req res err now hp
  have hOK := compileEntry_planOK (extractTokens format)
  constructor
  · show formatJS (joinSep " " (bgBadge req :: (compile format).requestOutput))
        ((compile format).requstArgs.map (fun fn => fn true req res err now)) = _
    unfold formatJS
    have hseg : ∀ s ∈ bgBadge req :: (compile format).requestOutput, segOK s = true := by
      intro s hs
      rcases List.mem_cons.mp hs with rfl | hs
      · exact bgBadge_segOK req hp
      · exact hOK.1 s hs
    have hcount : countPH (bgBadge req :: (compile format).requestOutput)
        = ((compile format).requstArgs.map (fun fn => fn true req res err now)).length := by
      rw [countPH_cons, bgBadge_ne_ph, List.length_map]
      simpa using hOK.2.1
    rw [fmt_subst _ _ hseg hcount]
    rw [substSegs_nonph _ _ _ (bgBadge_ne_ph req)]
  · show (compileEntry (extractTokens format)).requstArgs = _
    unfold compileEntry
    rw [foldl_requstArgs]
    rw [req_tokens_incoming_none]
    by_cases hinc : (extractTokens format).isIncommingSet = true <;> simp [hinc]

/-- C2 witness: the order theorem applied at a concrete format and request. -/
theorem c2_placeholder_order_witness :
    (∀ c ∈ (toUpperStr sampleReq.protocol).data, (c == '%') = false)
    ∧ ((logRequest (compile ":method :url") sampleReq sampleRes none sampleDate).1
        = joinSep " " (bgBadge sampleReq :: substSegs (compile ":method :url").requestOutput
            ((compile ":method :url").requstArgs.map
              (fun fn => fn true sampleReq sampleRes none sampleDate)))
      ∧ (compile ":method :url").requstArgs
        = (extractTokens ":method :url").tokens.filterMap
            (fun token => (REQUEST_TOKENS (stripBrackets token)).map (fun f => f token))) :=
  ⟨by decide, c2_placeholder_order ":method :url" sampleReq sampleRes none sampleDate (by decide)⟩

/-- C3 counterexample: the claim says that for a format without the
`:incoming` token the connector index is the sentinel and the response
render never substitutes an outcome connector.  For the format ":method"
the compiled plan has connector index 0 (not the sentinel -999), and the
response-phase line does contain the substituted gray "-->" connector. -/
theorem c3_connector_reserved_without_incoming :
    (compile ":method").whereTheResponseIndicatorIs ≠ -999
    ∧ (paint .gray "-->").data <:+:
        ((logResponse (compile ":method") sampleReq sampleRes none "finish" sampleDate).1).data := by
  constructor <;> decide

/-- C3 (amended): when the `:incoming` token is absent the current compiler
still reserves the connector slot — it pushes default "<--"/"-->" markers and
records index 0, never the sentinel — and the response-phase render always
substitutes the outcome connector into that slot.  (The sentinel behavior
described by the claim exists only in the earlier variant kept in
src/unnamed/part_001.) -/
theorem c3_always_substitutes_connector : ∀ format : String,
    (extractTokens format).isIncommingSet = false →
    (compile format).whereTheResponseIndicatorIs = 0
    ∧ ∃ rest, (compile format).responseOutput = "-->" :: rest
      ∧ ∀ req res err ev now, (logResponse (compile format) req res err ev now).1 =
          formatJS (joinSep " " (bgBadge req :: upstreamConnector err ev res.statusCode :: rest))
            ((compile format).responseArgs.map (fun fn => fn false req res err now)) := by
  intro format h
  have hni := tokens_no_incoming_of_flag_false (splitTokenFormat format) h
  have hbase := foldl_no_incoming (extractTokens format).tokens
    { requestOutput := [paint .gray "<--"], responseOutput := ["-->"],
      whereTheResponseIndicatorIs := 0, requstArgs := [], responseArgs := [] } hni
  have hcomp : compile format = (extractTokens format).tokens.foldl compileStep
      { requestOutput := [paint .gray "<--"], responseOutput := ["-->"],
        whereTheResponseIndicatorIs := 0, requstArgs := [], responseArgs := [] } := by
    unfold compile compileEntry
    rw [h]
    simp
  rcases hbase with ⟨hind, l, hout⟩
  rw [hcomp]
  refine ⟨hind, l, by simpa using hout, ?_⟩
  intro req res err ev now
  unfold logResponse
  rw [hind]
  simp only [show ((0 : Int) != -999) = true from rfl, if_true]
  rw [show ((extractTokens format).tokens.foldl compileStep
      { requestOutput := [paint .gray "<--"], responseOutput := ["-->"],
        whereTheResponseIndicatorIs := 0, requstArgs := [], responseArgs := [] }).responseOutput
      = "-->" :: l from by simpa using hout]
  rw [show listSetInt ("-->" :: l) 0 (upstreamConnector err ev res.statusCode)
      = upstreamConnector err ev res.statusCode :: l from by simp [listSetInt]]

/-- C3 witness: the amended theorem applied to the format ":method". -/
theorem c3_always_substitutes_connector_witness :
    (extractTokens ":method").isIncommingSet = false
    ∧ (compile ":method").whereTheResponseIndicatorIs = 0 :=
  ⟨by decide, (c3_always_substitutes_connector ":method" (by decide)).1⟩

/-- C4 counterexample: the claim says the `:date` token renders the Apache
common log string of the instant.  The current code renders the `:date`
token through `timestamp()`, which concatenates the default-locale date
string with the en-US 12-hour time string; at a concrete instant this is
"1/2/2024 3:04:05 AM", not the Apache form "02/Jan/2024:03:04:05 +0000". -/
theorem c4_timestamp_not_apache :
    (REQUESTv ":date").map (fun f => f sampleReq sampleDate) = some (timestamp sampleDate)
    ∧ timestamp sampleDate = "1/2/2024 3:04:05 AM"
    ∧ apacheDateSpec sampleDate = "02/Jan/2024:03:04:05 +0000"
    ∧ timestamp sampleDate ≠ apacheDateSpec sampleDate :=
  ⟨rfl, by decide, by decide, by decide⟩

theorem pad2_lt100 : ∀ n, n < 100 → pad2 n = (if n < 10 then "0" else "") ++ toString n := by
  decide

/-- C4 (amended): the Apache-common-log rendering the claim describes —
`DD/Mon/YYYY:HH:MM:SS +0000`, month abbreviated from the English table, day,
hour, minute and second zero-padded to width two, year unpadded — is
produced by the `date` function of the earlier variant
(src/unnamed/part_001), for every instant with in-range components; the
current `timestamp()` used for `:date` renders the locale form instead. -/
theorem c4_variant_date_is_apache : ∀ d : JSDate, d.utcDate < 100 → d.utcHours < 100 →
    d.utcMinutes < 100 → d.utcSeconds < 100 → date d = apacheDateSpec d := by
  intro d h1 h2 h3 h4
  simp only [date, apacheDateSpec]
  rw [pad2_lt100 _ h1, pad2_lt100 _ h2, pad2_lt100 _ h3, pad2_lt100 _ h4]

/-- C4 witness: the amended theorem applied at a concrete instant. -/
theorem c4_variant_date_is_apache_witness :
    sampleDate.utcDate < 100 ∧ sampleDate.utcHours < 100
    ∧ sampleDate.utcMinutes < 100 ∧ sampleDate.utcSeconds < 100
    ∧ date sampleDate = apacheDateSpec sampleDate :=
  ⟨by decide, by decide, by decide, by decide,
    c4_variant_date_is_apache sampleDate (by decide) (by decide) (by decide) (by decide)⟩

/-- C5 counterexample: the claim says every bucket other than 1-5 maps to
the default yellow, naming bucket 7 explicitly.  The `colorCodes` table maps
bucket 7 to magenta, so an effective status of 700 is colored magenta. -/
theorem c5_bucket_seven_is_magenta :
    statusColorName 700 = "magenta" ∧ statusColorName 700 ≠ "yellow" := by
  constructor <;> decide

/-- C5 (amended): the `:status` color is selected by bucket
`floor(status / 100)`: buckets 1 and 2 map to green, 3 to cyan, 4 to yellow,
5 to red, 7 to magenta, and bucket 0 and every unmapped bucket fall back to
the default yellow. -/
theorem c5_status_color_map : ∀ status : Nat, statusColorName status =
    (if status / 100 = 1 ∨ status / 100 = 2 then "green"
     else if status / 100 = 3 then "cyan"
     else if status / 100 = 4 then "yellow"
     else if status / 100 = 5 then "red"
     else if status / 100 = 7 then "magenta"
     else "yellow") := by
  intro status
  unfold statusColorName colorCodes
  generalize status / 100 = b
  rcases b with _|_|_|_|_|_|_|_|b <;> rfl

/-- C6: for a non-negative elapsed delta, the `:response-time` value renders
as the thousands-grouped milliseconds with suffix "ms" when the delta is
under 10000, and otherwise as the delta rounded to whole seconds
(thousands-grouped) with suffix "s"; the returned delta is the raw
millisecond difference, and the color is bucketed on that raw delta (green
under 50, the second color under 100, the third from 100 up) regardless of
the display unit; the response token pairs the rendered string with the
color of the raw delta. -/
theorem c6_elapsed_rendering (now start : Int) (h : 0 ≤ now - start) :
    (time now start).1 =
      (if now - start < 10000 then groupedNat (now - start).toNat ++ "ms"
       else groupedNat (jsRound1000 (now - start)).toNat ++ "s")
    ∧ (time now start).2 = now - start
    ∧ getColorForTime (now - start) =
        (if now - start < 50 then Color.green
         else if now - start < 100 then Color.magenta
         else Color.red)
    ∧ ∀ (req : Request) (res : Response) (err : Option ErrObj) (d : JSDate) (st : Int),
        res.xStartTime = some st →
        (RESPONSEv ":response-time").map (fun f => f req res err d)
          = some (.colored (time d.epochMs st).1 (getColorForTime (d.epochMs - st))) := by
  refine ⟨?_, rfl, rfl, ?_⟩
  · show humanize (if now - start < 10000 then toString (now - start) ++ "ms"
        else toString (jsRound1000 (now - start)) ++ "s") = _
    by_cases hlt : now - start < 10000
    · rw [if_pos hlt, if_pos hlt, int_toString_nonneg _ h, humanize_ms]
    · have hnn : 0 ≤ jsRound1000 (now - start) := by
        unfold jsRound1000
        apply Int.fdiv_nonneg <;> omega
      rw [if_neg hlt, if_neg hlt, int_toString_nonneg _ hnn, humanize_sec]
  · intro req res err d st hst
    have hR : RESPONSEv ":response-time" = some (fun _ res _ now =>
        match res.xStartTime with
        | some start =>
          RespVal.colored (time now.epochMs start).1 (getColorForTime (time now.epochMs start).2)
        | none => RespVal.colored "NaNs" Color.red) := by rfl
    rw [hR, Option.map_some']
    show some (match res.xStartTime with
      | some start =>
        RespVal.colored (time d.epochMs start).1 (getColorForTime (time d.epochMs start).2)
      | none => RespVal.colored "NaNs" Color.red) = _
    rw [hst]
    rfl

/-- C6 witness: the elapsed-rendering theorem at a delta of 30 ms. -/
theorem c6_elapsed_rendering_witness :
    0 ≤ (1030 : Int) - 1000 ∧ (time 1030 1000).1 = "30ms"
    ∧ getColorForTime 30 = Color.green :=
  ⟨by decide,
    ((c6_elapsed_rendering 1030 1000 (by decide)).1).trans (by decide),
    ((c6_elapsed_rendering 1030 1000 (by decide)).2.2.1).trans (by decide)⟩

/-- C7: for every exchange, whatever nonempty sequence of finish/close
completion signals the response delivers, the response-phase render runs
exactly once — the middleware logs exactly one response line — and it runs
with the event name of the first signal delivered. -/
theorem c7_exactly_once_response : ∀ (plan : Plan) (req : Request) (res : Response)
    (now : JSDate) (startMs : Int) (e : Ev) (d : JSDate) (rest : List (Ev × JSDate)),
    (mwRun ((e, d) :: rest) (middlewareStart plan req res now startMs).2).responseLines
      = [(logResponse (logRequest plan req { res with xStartTime := some startMs } none now).2
          req { res with xStartTime := some startMs } none (evName e) d).1] := by
  intro plan req res now startMs e d rest
  have hstep : mwFire (middlewareStart plan req res now startMs).2 (e, d)
      = mwDone e d (middlewareStart plan req res now startMs).2 := by
    cases e <;> rfl
  show (mwRun rest (mwFire (middlewareStart plan req res now startMs).2 (e, d))).responseLines = _
  rw [hstep, mwRun_cleared rest _ rfl rfl]
  rfl

/-- C8: the client address resolution of `getIp` is exactly the claim's
fallback chain — one ordered candidate list (client-IP header, the
port-stripped comma-separated forwarded-for entries, real-IP header, the two
legacy headers, socket peer, deprecated connection peer), each candidate
accepted only when the strict IP validator passes, first hit wins, "-" when
none validates.  In particular, with x-forwarded-for "not-an-ip, 10.0.0.5:1234"
and no higher-priority header, the resolved address is "10.0.0.5". -/
theorem c8_ip_fallback_chain : (∀ req : Request, getIp req = clientAddressSpec req)
    ∧ getIp xffReq = "10.0.0.5" := by
  constructor
  · intro req
    unfold getIp clientAddressSpec
    cases hH : req.headers with
    | none => rfl
    | some h =>
      simp only [List.append_assoc]
      rw [findOpt_cons h.xClientIp]
      by_cases h1 : ip h.xClientIp = true
      · simp only [h1, if_true]
      · simp only [Bool.not_eq_true] at h1
        simp only [h1, Bool.false_eq_true, if_false]
        cases hx : h.xForwardedFor with
        | none =>
          rw [show getForwardedFor none = "-" from rfl]
          simp only [bne_self_eq_false, Bool.false_eq_true, if_false, List.nil_append]
          exact getIp_tail_chain req h
        | some v =>
          rw [show getForwardedFor (some v) = (if v == "" then "-"
              else match ((jsSplit ',' v).map normalizeXffEntry).find? (fun e => ip (some e)) with
                | some e => e
                | none => "-") from rfl]
          by_cases hveq : (v == "") = true
          · simp only [hveq, if_true, bne_self_eq_false, Bool.false_eq_true, if_false,
              List.nil_append]
            exact getIp_tail_chain req h
          · simp only [hveq, Bool.false_eq_true, if_false]
            rw [List.find?_append]
            cases hf : ((jsSplit ',' v).map normalizeXffEntry).find? (fun e => ip (some e)) with
            | some e =>
              have hpe : ip (some e) = true := by
                have := List.find?_some hf
                simpa using this
              have hne : (e != "-") = true := by
                rcases eq_or_ne e "-" with rfl | hne
                · rw [ip_dash_false] at hpe
                  exact absurd hpe (by decide)
                · simpa using hne
              simp only [hf, Option.or_some, hne, if_true]
            | none =>
              simp only [hf, Option.none_or, bne_self_eq_false, Bool.false_eq_true, if_false]
              exact getIp_tail_chain req h
  · decide

/-- C9: an unknown token fragment contributes nothing to compilation: for
every fragment stream, inserting a fragment whose bracket-stripped,
whitespace-stripped form is outside the TOKENS vocabulary leaves the
extraction result — and hence the compiled plan — unchanged, and a format
string that splits into such a stream compiles to the plan of the stream
without the unknown fragment.  Compilation is total, so it cannot fail. -/
theorem c9_unknown_token_dropped : ∀ (xs ys : List String) (u : String),
    TOKENS.contains (stripBrackets (stripWsAll u)) = false →
    extractFromFragments (xs ++ u :: ys) = extractFromFragments (xs ++ ys)
    ∧ (∀ format : String, splitTokenFormat format = xs ++ u :: ys →
        compile format = compileEntry (extractFromFragments (xs ++ ys))) := by
  intro xs ys u hu
  have hmain : extractFromFragments (xs ++ u :: ys) = extractFromFragments (xs ++ ys) := by
    unfold extractFromFragments
    by_cases hk : (jsTrim u != "") = true
    · have hmid : (stripBrackets (stripWsAll u) == ":incoming") = false := by
        apply Bool.eq_false_iff.mpr
        intro he
        rw [eq_of_beq he] at hu
        exact absurd hu (by decide)
      simp only [List.filter_append, List.filter_cons, hk, if_true, List.map_append,
        List.map_cons, List.any_append, List.any_cons, List.filter_append, List.filter_cons,
        hu, hmid, Bool.false_eq_true, if_false, Bool.false_or]
    · simp only [Bool.not_eq_true] at hk
      simp only [List.filter_append, List.filter_cons, hk, Bool.false_eq_true, if_false]
  refine ⟨hmain, ?_⟩
  intro format hf
  show compileEntry (extractFromFragments (splitTokenFormat format)) = _
  rw [hf, hmain]

/-- C9 witness: the format ":method :bogus-token" splits into a stream with
the unknown fragment ":bogus-token", and compiles to the plan of the stream
without it. -/
theorem c9_unknown_token_dropped_witness :
    TOKENS.contains (stripBrackets (stripWsAll ":bogus-token")) = false
    ∧ splitTokenFormat ":method :bogus-token" = ["", ":method", " "] ++ ":bogus-token" :: [""]
    ∧ compile ":method :bogus-token"
        = compileEntry (extractFromFragments (["", ":method", " "] ++ [""])) := by
  refine ⟨by decide, by decide, ?_⟩
  exact (c9_unknown_token_dropped ["", ":method", " "] [""] ":bogus-token" (by decide)).2
    ":method :bogus-token" (by decide)

/-- C10 (implicit): the middleware invokes both renders with a null error —
the request-phase line it emits is the null-error request render, and every
response render it performs passes a null error — so with a null error the
effective status for `:status` and `:content-length` comes only from the
response status code (404 default), and the outcome connector never takes
the error branch: it is determined by the event name and the response
status code alone. -/
theorem c10_middleware_null_error :
    (∀ plan req res now startMs, (middlewareStart plan req res now startMs).1
      = (logRequest plan req { res with xStartTime := some startMs } none now).1)
    ∧ (∀ (ev : Ev) (d : JSDate) (st : MwState), (mwDone ev d st).responseLines
      = st.responseLines ++ [(logResponse st.plan st.request st.response none (evName ev) d).1])
    ∧ (∀ res : Response, effectiveStatus none res = (if res.statusCode == 0 then 404 else res.statusCode))
    ∧ (∀ (ev : String) (sc : Nat), upstreamConnector none ev sc =
        (if ev == "close" then paint .yellow "-x-"
         else if 500 ≤ sc then paint .red "xxx"
         else if sc == 404 then paint .cyan "-X-"
         else paint .gray "-->")) :=
  ⟨fun _ _ _ _ _ => rfl, fun _ _ _ => rfl, fun _ => rfl, fun _ _ => rfl⟩

end Chrona

